import Mathlib

/-!
Shallow embedding of the Timer and FullscreenTimer modules of `src/script.js`
(a Pomodoro-style countdown timer web app).

JS numbers that hold whole-minute / whole-second quantities are modelled as
`Int` (the code only ever adds, subtracts, multiplies and takes `%` on them;
JS `%` on integers is the truncated remainder, `Int.tmod`).  DOM reads,
class-list updates and `Storage` writes that only affect presentation are not
part of the state; the persisted keys the claims talk about are modelled in a
`Store` record, with `Storage.set` as a record update (best-effort writes are
modelled as succeeding).  A repeating `setInterval` tick source is modelled by
counting the live intervals a module has created (`tickSources`), since the
claims are about how many exist; `clearInterval(handle)` kills the interval
the stored handle references, which is always the most recently created one.
-/

namespace NotesApp

/-- `Timer.currentMode`: one of `'work'`, `'short-break'`, `'long-break'`. -/
inductive Mode where
  | work
  | shortBreak
  | longBreak
deriving DecidableEq

/-- `Timer.settings` (script.js lines 176-181). -/
structure Settings where
  workDuration : Int
  breakDuration : Int
  longBreakDuration : Int
  sessionsBeforeLong : Int
deriving DecidableEq

/-- The persisted keys the Timer module writes (`Storage.set`). -/
structure Store where
  workDuration : Int
  breakDuration : Int
  longBreakDuration : Int
  sessionsBeforeLong : Int
  sessionsCompleted : Int
  totalFocusTime : Int
deriving DecidableEq

/-- The state of the `Timer` object (script.js lines 168-186), plus the
count of live countdown intervals it has created (`tickSources`). -/
structure TimerState where
  timeLeft : Int
  isRunning : Bool
  tickSources : Nat
  currentMode : Mode
  sessionsCompleted : Int
  totalFocusTime : Int
  settings : Settings
  store : Store
deriving DecidableEq

namespace Timer

/-- `Timer.getCurrentModeDuration` (script.js lines 360-366). -/
def getCurrentModeDuration (s : TimerState) : Int :=
  match s.currentMode with
  | Mode.work => s.settings.workDuration
  | Mode.shortBreak => s.settings.breakDuration
  | Mode.longBreak => s.settings.longBreakDuration

/-- `Timer.start` (script.js lines 290-309): early-returns when already
running; otherwise sets `isRunning` and creates one new repeating interval. -/
def start (s : TimerState) : TimerState :=
  if s.isRunning then s
  else { s with isRunning := true, tickSources := s.tickSources + 1 }

/-- `Timer.pause` (script.js lines 311-319): sets `isRunning = false` and
`clearInterval(this.interval)`.  The stored handle always references the most
recently created interval; clearing an already-dead interval is a no-op,
hence the truncated `Nat` decrement. -/
def pause (s : TimerState) : TimerState :=
  { s with isRunning := false, tickSources := s.tickSources - 1 }

/-- `Timer.reset` (script.js lines 321-329): pause, then resynchronise
`timeLeft` to the current mode's configured duration. -/
def reset (s : TimerState) : TimerState :=
  let s1 := pause s
  { s1 with timeLeft := getCurrentModeDuration s1 * 60 }

/-- `Timer.complete` (script.js lines 331-358): pause; if the mode was work,
increment `sessionsCompleted`, add `workDuration` to `totalFocusTime`,
persist both, and pick the next mode by `sessionsCompleted %
sessionsBeforeLong`; otherwise go back to work; finally reset `timeLeft`
to the new mode's duration.  (`playSound`/`showNotification` are
side-effect dispatches, modelled separately.) -/
def complete (s : TimerState) : TimerState :=
  let s1 := pause s
  let s2 :=
    if s1.currentMode = Mode.work then
      let sc := s1.sessionsCompleted + 1
      let tf := s1.totalFocusTime + s1.settings.workDuration
      { s1 with
          sessionsCompleted := sc
          totalFocusTime := tf
          store := { s1.store with sessionsCompleted := sc, totalFocusTime := tf }
          currentMode :=
            if Int.tmod sc s1.settings.sessionsBeforeLong = 0 then Mode.longBreak
            else Mode.shortBreak }
    else
      { s1 with currentMode := Mode.work }
  { s2 with timeLeft := getCurrentModeDuration s2 * 60 }

/-- The `setInterval` callback installed by `Timer.start` (script.js lines
300-308): `this.timeLeft--`, then `if (this.timeLeft <= 0) this.complete()`. -/
def tick (s : TimerState) : TimerState :=
  let s1 := { s with timeLeft := s.timeLeft - 1 }
  if s1.timeLeft ≤ 0 then complete s1 else s1

/-- Whether one firing of the interval callback invokes `complete`. -/
def tickFires (s : TimerState) : Bool := s.timeLeft - 1 ≤ 0

/-- `Timer.setCustomTime` (script.js lines 273-277): sets
`timeLeft = minutes * 60`; mode, settings and store untouched. -/
def setCustomTime (m : Int) (s : TimerState) : TimerState :=
  { s with timeLeft := m * 60 }

/-- `Timer.saveSettings` (script.js lines 492-505): assigns the four parsed
fields to `settings`, persists all four, then calls `reset()`
(`toggleSettings` only touches the DOM).  There is no validation step. -/
def saveSettings (w b l n : Int) (s : TimerState) : TimerState :=
  let s1 :=
    { s with
        settings :=
          { workDuration := w
            breakDuration := b
            longBreakDuration := l
            sessionsBeforeLong := n }
        store :=
          { s.store with
              workDuration := w
              breakDuration := b
              longBreakDuration := l
              sessionsBeforeLong := n } }
  reset s1

/-- The browser's `Notification.permission` tri-state. -/
inductive NotifPermission where
  | granted
  | denied
  | defaultPerm
deriving DecidableEq

/-- `Timer.showNotification` (script.js lines 473-478): only when permission
is granted; message chosen from the CURRENT mode (already the next mode when
called from `complete`). -/
def showNotification (p : NotifPermission) (s : TimerState) : Option String :=
  if p = NotifPermission.granted then
    some (if s.currentMode = Mode.work then "Time to focus!" else "Take a break!")
  else none

/-- The notification dispatched at the end of `complete` (script.js line 357):
`showNotification` runs after `currentMode` has been switched. -/
def completeNotification (p : NotifPermission) (s : TimerState) : Option String :=
  showNotification p (complete s)

/-- `Timer.updateProgress` (script.js lines 408-412):
`totalTime = getCurrentModeDuration() * 60`, `elapsed = totalTime - timeLeft`,
`percentage = elapsed / totalTime * 100`, modelled exactly over `Rat`. -/
def progressPercentage (s : TimerState) : Rat :=
  let totalTime : Rat := ((getCurrentModeDuration s * 60 : Int) : Rat)
  let elapsed : Rat := totalTime - ((s.timeLeft : Int) : Rat)
  elapsed / totalTime * 100

/-- `n` firings of the countdown interval, counting how many invoke
`complete`.  Once the state is paused the interval has been cleared, so no
further firings occur. -/
def iterTicks : Nat → TimerState → TimerState × Nat
  | 0, s => (s, 0)
  | k + 1, s =>
    if s.isRunning then
      let fired : Nat := if tickFires s then 1 else 0
      let r := iterTicks k (tick s)
      (r.1, fired + r.2)
    else (s, 0)

end Timer

/-- The state built by `Timer.init` (script.js lines 188-195) from the six
persisted values: `timeLeft = workDuration * 60`, paused, work mode. -/
def loadState (w b l n sc tf : Int) : TimerState :=
  { timeLeft := w * 60
    isRunning := false
    tickSources := 0
    currentMode := Mode.work
    sessionsCompleted := sc
    totalFocusTime := tf
    settings :=
      { workDuration := w
        breakDuration := b
        longBreakDuration := l
        sessionsBeforeLong := n }
    store :=
      { workDuration := w
        breakDuration := b
        longBreakDuration := l
        sessionsBeforeLong := n
        sessionsCompleted := sc
        totalFocusTime := tf } }

/-- Initial state on a fresh profile: the `Storage.get` defaults
(25, 5, 15, 4, 0, 0) of script.js lines 173-181. -/
def initState : TimerState := loadState 25 5 15 4 0 0

/-- The spec's validity condition on settings: each field a positive integer. -/
def validSettings (st : Settings) : Prop :=
  1 ≤ st.workDuration ∧ 1 ≤ st.breakDuration ∧
    1 ≤ st.longBreakDuration ∧ 1 ≤ st.sessionsBeforeLong

instance (st : Settings) : Decidable (validSettings st) := by
  unfold validSettings; infer_instance

/-- One user-visible Timer operation, as the event handlers expose them.
`P` constrains the integers `saveSettings` receives from `parseInt`:
`fun _ _ _ _ => True` is the code as written (any integer reaches it),
positivity models the spec's claimed validation.  `tick` only fires while an
interval is live (running); `setCustomTime` is only reachable through
`editTime`/preset clicks, which require `!isRunning` and a positive
minute count (script.js lines 219-241, 256-271). -/
inductive Step (P : Int → Int → Int → Int → Prop) : TimerState → TimerState → Prop where
  | start (s : TimerState) : Step P s (Timer.start s)
  | pause (s : TimerState) : Step P s (Timer.pause s)
  | reset (s : TimerState) : Step P s (Timer.reset s)
  | tick (s : TimerState) : s.isRunning = true → Step P s (Timer.tick s)
  | setCustom (s : TimerState) (m : Int) :
      s.isRunning = false → 1 ≤ m → Step P s (Timer.setCustomTime m s)
  | save (s : TimerState) (w b l n : Int) :
      P w b l n → Step P s (Timer.saveSettings w b l n s)

/-- No constraint on what `saveSettings` receives: the code as written. -/
def AnyInput : Int → Int → Int → Int → Prop := fun _ _ _ _ => True

/-- `saveSettings` only ever receives positive integers: the inputs the
spec's (claimed) validation would let through. -/
def PosInput : Int → Int → Int → Int → Prop :=
  fun w b l n => 1 ≤ w ∧ 1 ≤ b ∧ 1 ≤ l ∧ 1 ≤ n

/-- Reachability by any sequence of user operations. -/
def Reach (s0 s : TimerState) : Prop :=
  Relation.ReflTransGen (Step AnyInput) s0 s

/-- Reachability when every settings save carries positive integers. -/
def ReachValid (s0 s : TimerState) : Prop :=
  Relation.ReflTransGen (Step PosInput) s0 s

/-- State of the `FullscreenTimer` object (script.js lines 872-875, 954-991):
`isOpen`, whether the `quoteInterval` handle references a live interval
(`handleLive`; the handle is nulled whenever it is cleared, so non-null means
live), and how many live quote intervals are no longer referenced
(`leakedQuotes`: `open` overwrites the handle without clearing it). -/
structure FsState where
  isOpen : Bool
  handleLive : Bool
  leakedQuotes : Nat
deriving DecidableEq

/-- Initial fullscreen state: closed, `quoteInterval = null`. -/
def fsInit : FsState := { isOpen := false, handleLive := false, leakedQuotes := 0 }

namespace FullscreenTimer

/-- Total number of live quote-rotation intervals. -/
def quoteSources (f : FsState) : Nat :=
  f.leakedQuotes + (if f.handleLive then 1 else 0)

/-- `FullscreenTimer.open` (script.js lines 954-980): unconditionally sets
`isOpen = true` and `this.quoteInterval = setInterval(...)` — a new interval
is always created and the handle overwritten, so a previously live one leaks. -/
def openFS (f : FsState) : FsState :=
  { isOpen := true
    handleLive := true
    leakedQuotes := f.leakedQuotes + (if f.handleLive then 1 else 0) }

/-- `FullscreenTimer.close` (script.js lines 982-991): sets `isOpen = false`;
if `quoteInterval` is non-null, clears it and nulls the handle. -/
def close (f : FsState) : FsState :=
  { f with isOpen := false, handleLive := false }

end FullscreenTimer

/-- One fullscreen lifecycle operation. -/
inductive FsStep : FsState → FsState → Prop where
  | openStep (f : FsState) : FsStep f (FullscreenTimer.openFS f)
  | closeStep (f : FsState) : FsStep f (FullscreenTimer.close f)

/-- Fullscreen states reachable from startup. -/
def FsReach (f : FsState) : Prop := Relation.ReflTransGen FsStep fsInit f

end NotesApp

namespace NotesApp

namespace Timer

/-- `start` on a running state returns early. -/
theorem start_run {s : TimerState} (h : s.isRunning = true) : start s = s := by
  simp [start, h]

/-- `start` on a paused state sets `isRunning` and adds one interval. -/
theorem start_notRun {s : TimerState} (h : s.isRunning = false) :
    start s =
      { s with
          isRunning := true
          tickSources := s.tickSources + 1 } := by
  simp [start, h]

/-- `reset` spelled out as a single record update. -/
theorem reset_eq (s : TimerState) :
    reset s =
      { s with
          isRunning := false
          tickSources := s.tickSources - 1
          timeLeft := getCurrentModeDuration s * 60 } := rfl

/-- `complete` from work mode, spelled out. -/
theorem complete_work {s : TimerState} (h : s.currentMode = Mode.work) :
    complete s =
      { s with
          isRunning := false
          tickSources := s.tickSources - 1
          sessionsCompleted := s.sessionsCompleted + 1
          totalFocusTime := s.totalFocusTime + s.settings.workDuration
          store :=
            { s.store with
                sessionsCompleted := s.sessionsCompleted + 1
                totalFocusTime := s.totalFocusTime + s.settings.workDuration }
          currentMode :=
            if Int.tmod (s.sessionsCompleted + 1) s.settings.sessionsBeforeLong = 0
            then Mode.longBreak else Mode.shortBreak
          timeLeft :=
            (if Int.tmod (s.sessionsCompleted + 1) s.settings.sessionsBeforeLong = 0
             then s.settings.longBreakDuration else s.settings.breakDuration) * 60 } := by
  by_cases hc : Int.tmod (s.sessionsCompleted + 1) s.settings.sessionsBeforeLong = 0 <;>
  · unfold complete pause
    simp [h, hc, getCurrentModeDuration]

/-- `complete` from a break mode, spelled out. -/
theorem complete_break {s : TimerState} (h : ¬ s.currentMode = Mode.work) :
    complete s =
      { s with
          isRunning := false
          tickSources := s.tickSources - 1
          currentMode := Mode.work
          timeLeft := s.settings.workDuration * 60 } := by
  unfold complete pause
  simp [h, getCurrentModeDuration]

/-- A firing of the interval callback that reaches zero invokes `complete`. -/
theorem tick_fire {s : TimerState} (h : s.timeLeft - 1 ≤ 0) :
    tick s = complete { s with timeLeft := s.timeLeft - 1 } := by
  simp [tick, h]

/-- A firing of the interval callback that stays positive just decrements. -/
theorem tick_noFire {s : TimerState} (h : ¬ s.timeLeft - 1 ≤ 0) :
    tick s = { s with timeLeft := s.timeLeft - 1 } := by
  simp [tick, h]

/-- A positive-settings state has a positive current-mode duration. -/
theorem dur_pos {s : TimerState} (h : validSettings s.settings) :
    1 ≤ getCurrentModeDuration s := by
  obtain ⟨h1, h2, h3, h4⟩ := h
  unfold getCurrentModeDuration
  cases s.currentMode <;> assumption

end Timer

/-- Consistency of the interval count with `isRunning`: paused states have no
live countdown interval, running states exactly one. -/
def TickInv (s : TimerState) : Prop :=
  s.tickSources = if s.isRunning then 1 else 0

/-- Every user operation preserves `TickInv`. -/
theorem step_tickInv {P : Int → Int → Int → Int → Prop} {s s' : TimerState}
    (hs : Step P s s') (h : TickInv s) : TickInv s' := by
  unfold TickInv at *
  cases hs with
  | start =>
    by_cases hr : s.isRunning = true
    · rw [Timer.start_run hr]; exact h
    · rw [Timer.start_notRun (by simpa using hr)]
      simp_all
  | pause =>
    simp only [Timer.pause]
    split at h <;> simp_all
  | reset =>
    rw [Timer.reset_eq]
    split at h <;> simp_all
  | tick hr =>
    by_cases hf : s.timeLeft - 1 ≤ 0
    · rw [Timer.tick_fire hf]
      by_cases hm : ({ s with timeLeft := s.timeLeft - 1 } : TimerState).currentMode = Mode.work
      · rw [Timer.complete_work hm]; simp_all
      · rw [Timer.complete_break hm]; simp_all
    · rw [Timer.tick_noFire hf]; simp_all
  | setCustom m hr hm =>
    simp only [Timer.setCustomTime]
    simp_all
  | save w b l n hp =>
    simp only [Timer.saveSettings, Timer.reset_eq]
    split at h <;> simp_all

/-- `TickInv` holds in every reachable state. -/
theorem reach_tickInv {P : Int → Int → Int → Int → Prop} {s0 s : TimerState}
    (h : Relation.ReflTransGen (Step P) s0 s) (h0 : TickInv s0) : TickInv s := by
  induction h with
  | refl => exact h0
  | tail _ hstep ih => exact step_tickInv hstep ih

/-- Positive settings together with a positive remaining time. -/
def TimeInv (s : TimerState) : Prop :=
  validSettings s.settings ∧ 1 ≤ s.timeLeft

/-- Every user operation whose settings saves carry positive integers
preserves `TimeInv`. -/
theorem stepValid_timeInv {s s' : TimerState}
    (hs : Step PosInput s s') (h : TimeInv s) : TimeInv s' := by
  obtain ⟨hv, ht⟩ := h
  cases hs with
  | start =>
    by_cases hr : s.isRunning = true
    · rw [Timer.start_run hr]; exact ⟨hv, ht⟩
    · rw [Timer.start_notRun (by simpa using hr)]; exact ⟨hv, ht⟩
  | pause => exact ⟨hv, ht⟩
  | reset =>
    rw [Timer.reset_eq]
    refine ⟨hv, ?_⟩
    have := Timer.dur_pos (s := s) hv
    simp only []
    omega
  | tick hr =>
    by_cases hf : s.timeLeft - 1 ≤ 0
    · rw [Timer.tick_fire hf]
      by_cases hm : ({ s with timeLeft := s.timeLeft - 1 } : TimerState).currentMode = Mode.work
      · rw [Timer.complete_work hm]
        obtain ⟨h1, h2, h3, h4⟩ := hv
        refine ⟨⟨h1, h2, h3, h4⟩, ?_⟩
        simp only []
        split <;> omega
      · rw [Timer.complete_break hm]
        obtain ⟨h1, h2, h3, h4⟩ := hv
        refine ⟨⟨h1, h2, h3, h4⟩, ?_⟩
        simp only []
        omega
    · rw [Timer.tick_noFire hf]
      exact ⟨hv, by simp only []; omega⟩
  | setCustom m hr hm =>
    refine ⟨hv, ?_⟩
    simp only [Timer.setCustomTime]
    omega
  | save w b l n hp =>
    obtain ⟨hw, hb, hl, hn⟩ := hp
    simp only [Timer.saveSettings, Timer.reset_eq]
    constructor
    · exact ⟨hw, hb, hl, hn⟩
    · have hd : (1 : Int) ≤
          Timer.getCurrentModeDuration
            { s with
                settings :=
                  { workDuration := w
                    breakDuration := b
                    longBreakDuration := l
                    sessionsBeforeLong := n }
                store :=
                  { s.store with
                      workDuration := w
                      breakDuration := b
                      longBreakDuration := l
                      sessionsBeforeLong := n } } :=
        Timer.dur_pos ⟨hw, hb, hl, hn⟩
      simp only [] at hd ⊢
      omega

/-- `TimeInv` holds in every validated-reachable state. -/
theorem reachValid_timeInv {s0 s : TimerState}
    (h : ReachValid s0 s) (h0 : TimeInv s0) : TimeInv s := by
  induction h with
  | refl => exact h0
  | tail _ hstep ih => exact stepValid_timeInv hstep ih

end NotesApp

namespace NotesApp

/-- Unfolding one firing of a running countdown. -/
theorem iterTicks_succ_run {s : TimerState} (hr : s.isRunning = true) (k : Nat) :
    Timer.iterTicks (k + 1) s =
      ((Timer.iterTicks k (Timer.tick s)).1,
       (if Timer.tickFires s then 1 else 0) + (Timer.iterTicks k (Timer.tick s)).2) := by
  simp [Timer.iterTicks, hr]

/-- While more than `k` seconds remain, `k` firings only count down and never
invoke `complete`. -/
theorem iterTicks_noFire (k : Nat) :
    ∀ s : TimerState, s.isRunning = true → (k : Int) < s.timeLeft →
      Timer.iterTicks k s = ({ s with timeLeft := s.timeLeft - (k : Int) }, 0) := by
  induction k with
  | zero =>
    intro s hr hk
    simp only [Timer.iterTicks, Nat.cast_zero, sub_zero]
  | succ k ih =>
    intro s hr hk
    have hkk : (k : Int) + 1 < s.timeLeft := by push_cast at hk; omega
    have hf : ¬ s.timeLeft - 1 ≤ 0 := by omega
    have hff : Timer.tickFires s = false := by
      simp only [Timer.tickFires, decide_eq_false_iff_not]
      omega
    rw [iterTicks_succ_run hr, Timer.tick_noFire hf, hff]
    have hk' : (k : Int) < ({ s with timeLeft := s.timeLeft - 1 } : TimerState).timeLeft := by
      simp only []
      omega
    rw [ih ({ s with timeLeft := s.timeLeft - 1 }) hr hk']
    have harith : s.timeLeft - 1 - (k : Int) = s.timeLeft - ((k + 1 : Nat) : Int) := by
      push_cast
      ring
    simp [harith]

/-- A running countdown with `t + 1` seconds left fires `complete` exactly on
its last firing: after `t + 1` firings the state is
`complete` of the zero-time state and the completion count is one. -/
theorem iterTicks_countdown (t : Nat) :
    ∀ s : TimerState, s.isRunning = true → s.timeLeft = ((t + 1 : Nat) : Int) →
      Timer.iterTicks (t + 1) s = (Timer.complete { s with timeLeft := 0 }, 1) := by
  induction t with
  | zero =>
    intro s hr ht
    have hf : s.timeLeft - 1 ≤ 0 := by rw [ht]; norm_num
    have hft : Timer.tickFires s = true := by
      simp only [Timer.tickFires, decide_eq_true_eq]
      omega
    rw [iterTicks_succ_run hr, Timer.tick_fire hf, hft]
    have hz : s.timeLeft - 1 = (0 : Int) := by rw [ht]; norm_num
    simp [Timer.iterTicks, hz]
  | succ t ih =>
    intro s hr ht
    have hf : ¬ s.timeLeft - 1 ≤ 0 := by rw [ht]; push_cast; omega
    have hff : Timer.tickFires s = false := by
      simp only [Timer.tickFires, decide_eq_false_iff_not]
      omega
    rw [iterTicks_succ_run hr, Timer.tick_noFire hf, hff]
    have ht' : ({ s with timeLeft := s.timeLeft - 1 } : TimerState).timeLeft
        = ((t + 1 : Nat) : Int) := by
      simp only []
      rw [ht]
      push_cast
      ring
    rw [ih ({ s with timeLeft := s.timeLeft - 1 }) hr ht']
    simp

/-- In every reachable fullscreen state, being closed means the
`quoteInterval` handle is dead (it is cleared and nulled on close). -/
theorem fsReach_closed_handle {f : FsState} (h : FsReach f) :
    f.isOpen = false → f.handleLive = false := by
  induction h with
  | refl => intro _; rfl
  | tail _ hstep _ =>
    cases hstep with
    | openStep => simp [FullscreenTimer.openFS]
    | closeStep => intro _; rfl

end NotesApp

namespace NotesApp

/-- C1, counterexample: the claim says invalid input (e.g. a non-positive
`workDuration`) is rejected and `saveSettings` is a no-op.  In the code,
saving `workDuration = -5` from the default state overwrites the in-memory
settings, the persisted settings and `timeLeftSeconds`: not a no-op. -/
theorem C1_counterexample :
    Timer.saveSettings (-5) 5 15 4 initState ≠ initState ∧
    (Timer.saveSettings (-5) 5 15 4 initState).settings.workDuration = -5 ∧
    (Timer.saveSettings (-5) 5 15 4 initState).store.workDuration = -5 ∧
    (Timer.saveSettings (-5) 5 15 4 initState).timeLeft = -300 ∧
    initState.settings.workDuration = 25 ∧
    initState.store.workDuration = 25 ∧
    initState.timeLeft = 1500 := by
  refine ⟨?_, ?_, ?_, ?_, ?_, ?_, ?_⟩ <;> decide

/-- C1, amended: `saveSettings` performs no validation at all: for every
integer input, positive or not, it assigns all four fields to the settings,
persists all four (leaving the two stats keys untouched), and invokes
`reset()`, so the timer ends up paused with `timeLeftSeconds` resynchronised
to the current mode's (possibly new, possibly non-positive) duration. -/
theorem C1_saveSettings_unvalidated (w b l n : Int) (s : TimerState) :
    (Timer.saveSettings w b l n s).settings =
      { workDuration := w
        breakDuration := b
        longBreakDuration := l
        sessionsBeforeLong := n } ∧
    (Timer.saveSettings w b l n s).store.workDuration = w ∧
    (Timer.saveSettings w b l n s).store.breakDuration = b ∧
    (Timer.saveSettings w b l n s).store.longBreakDuration = l ∧
    (Timer.saveSettings w b l n s).store.sessionsBeforeLong = n ∧
    (Timer.saveSettings w b l n s).store.sessionsCompleted = s.store.sessionsCompleted ∧
    (Timer.saveSettings w b l n s).store.totalFocusTime = s.store.totalFocusTime ∧
    Timer.saveSettings w b l n s =
      Timer.reset
        { s with
            settings :=
              { workDuration := w
                breakDuration := b
                longBreakDuration := l
                sessionsBeforeLong := n }
            store :=
              { s.store with
                  workDuration := w
                  breakDuration := b
                  longBreakDuration := l
                  sessionsBeforeLong := n } } ∧
    (Timer.saveSettings w b l n s).isRunning = false ∧
    (Timer.saveSettings w b l n s).currentMode = s.currentMode ∧
    (Timer.saveSettings w b l n s).timeLeft =
      Timer.getCurrentModeDuration (Timer.saveSettings w b l n s) * 60 :=
  ⟨rfl, rfl, rfl, rfl, rfl, rfl, rfl, rfl, rfl, rfl, rfl⟩

/-- C2: mode transitions happen only on countdown completion; completing a
work session first increments `sessionsCompleted` and goes to the long break
iff the new count is divisible by `sessionsBeforeLong`, otherwise the short
break; completing either break returns to work.  With `sessionsBeforeLong =
4` and a nonnegative session count the long break happens exactly when the
incremented count is divisible by 4, the pattern is 4-periodic, and from zero
sessions the first three completions give short breaks and the fourth the
long break. -/
theorem C2_mode_transitions :
    (∀ s : TimerState, s.currentMode = Mode.work →
        (Timer.complete s).sessionsCompleted = s.sessionsCompleted + 1 ∧
        (Timer.complete s).currentMode =
          (if Int.tmod (s.sessionsCompleted + 1) s.settings.sessionsBeforeLong = 0
           then Mode.longBreak else Mode.shortBreak)) ∧
    (∀ s : TimerState, ¬ s.currentMode = Mode.work →
        (Timer.complete s).currentMode = Mode.work) ∧
    (∀ s : TimerState,
        (Timer.start s).currentMode = s.currentMode ∧
        (Timer.pause s).currentMode = s.currentMode ∧
        (Timer.reset s).currentMode = s.currentMode) ∧
    (∀ (s : TimerState) (m : Int), (Timer.setCustomTime m s).currentMode = s.currentMode) ∧
    (∀ (s : TimerState) (w b l n : Int),
        (Timer.saveSettings w b l n s).currentMode = s.currentMode) ∧
    (∀ s : TimerState, Timer.tickFires s = false →
        (Timer.tick s).currentMode = s.currentMode) ∧
    (∀ s : TimerState, s.currentMode = Mode.work →
        s.settings.sessionsBeforeLong = 4 → 0 ≤ s.sessionsCompleted →
        ((Timer.complete s).currentMode = Mode.longBreak ↔
          Int.tmod (s.sessionsCompleted + 1) 4 = 0)) ∧
    (∀ (s : TimerState) (k : Int), s.currentMode = Mode.work →
        s.settings.sessionsBeforeLong = 4 → 0 ≤ k →
        (Timer.complete { s with sessionsCompleted := k + 4 }).currentMode =
          (Timer.complete { s with sessionsCompleted := k }).currentMode) ∧
    ((Timer.complete { initState with sessionsCompleted := 0 }).currentMode = Mode.shortBreak ∧
     (Timer.complete { initState with sessionsCompleted := 1 }).currentMode = Mode.shortBreak ∧
     (Timer.complete { initState with sessionsCompleted := 2 }).currentMode = Mode.shortBreak ∧
     (Timer.complete { initState with sessionsCompleted := 3 }).currentMode = Mode.longBreak ∧
     (Timer.complete { initState with sessionsCompleted := 4 }).currentMode = Mode.shortBreak ∧
     (Timer.complete { initState with sessionsCompleted := 7 }).currentMode = Mode.longBreak) := by
  refine ⟨?_, ?_, ?_, ?_, ?_, ?_, ?_, ?_, ?_⟩
  · intro s h
    rw [Timer.complete_work h]
    exact ⟨rfl, rfl⟩
  · intro s h
    rw [Timer.complete_break h]
  · intro s
    refine ⟨?_, rfl, rfl⟩
    unfold Timer.start
    split <;> rfl
  · intro s m
    rfl
  · intro s w b l n
    rfl
  · intro s hf
    have hnf : ¬ s.timeLeft - 1 ≤ 0 := by
      simpa [Timer.tickFires, decide_eq_false_iff_not] using hf
    rw [Timer.tick_noFire hnf]
  · intro s h h4 hsc
    rw [Timer.complete_work h]
    simp only [h4]
    split <;> simp_all
  · intro s k h h4 hk
    rw [Timer.complete_work (s := { s with sessionsCompleted := k + 4 }) h]
    rw [Timer.complete_work (s := { s with sessionsCompleted := k }) h]
    simp only [h4]
    have hiff : Int.tmod (k + 4 + 1) 4 = 0 ↔ Int.tmod (k + 1) 4 = 0 := by
      rw [Int.tmod_eq_emod (by omega) (by norm_num),
          Int.tmod_eq_emod (by omega) (by norm_num)]
      omega
    rw [if_congr hiff rfl rfl]
  · refine ⟨?_, ?_, ?_, ?_, ?_, ?_⟩ <;> decide

/-- C2, witness: the transition rule applied to the initial (work, zero
sessions) state. -/
theorem C2_mode_transitions_witness :
    (Timer.complete initState).sessionsCompleted = initState.sessionsCompleted + 1 ∧
    (Timer.complete initState).currentMode =
      (if Int.tmod (initState.sessionsCompleted + 1) initState.settings.sessionsBeforeLong = 0
       then Mode.longBreak else Mode.shortBreak) :=
  C2_mode_transitions.1 initState (by decide)

end NotesApp

namespace NotesApp

/-- C3, counterexample: because `saveSettings` does not validate (see C1), a
state with negative `timeLeftSeconds` IS reachable: saving `workDuration =
-5` makes `reset()` set `timeLeft = -300`.  This refutes "for every reachable
state timeLeftSeconds ≥ 0" as stated over the code. -/
theorem C3_counterexample :
    Reach initState (Timer.saveSettings (-5) 5 15 4 initState) ∧
    (Timer.saveSettings (-5) 5 15 4 initState).timeLeft = -300 ∧
    (Timer.saveSettings (-5) 5 15 4 initState).timeLeft < 0 :=
  ⟨Relation.ReflTransGen.single (Step.save initState (-5) 5 15 4 trivial),
   by decide, by decide⟩

/-- C3, amended: provided every settings save carries positive integers (the
validation the spec assumes), `timeLeftSeconds` stays nonnegative in every
reachable state; a running state with one second left fires `complete` on the
next tick (which resets `timeLeft` to the next mode's full duration) instead
of decrementing further; and over a whole countdown of `t` seconds,
`complete` fires exactly once — on the final tick, never before. -/
theorem C3_no_negative_time :
    (∀ s0 s : TimerState, validSettings s0.settings → 1 ≤ s0.timeLeft →
        ReachValid s0 s → 0 ≤ s.timeLeft) ∧
    (∀ s : TimerState, s.isRunning = true → s.timeLeft = 1 →
        Timer.tickFires s = true ∧
        Timer.tick s = Timer.complete { s with timeLeft := 0 } ∧
        (Timer.tick s).timeLeft = Timer.getCurrentModeDuration (Timer.tick s) * 60) ∧
    (∀ (t : Nat) (s : TimerState), 1 ≤ t → s.isRunning = true →
        s.timeLeft = (t : Int) →
        (Timer.iterTicks t s).2 = 1 ∧
        ∀ k : Nat, k < t → (Timer.iterTicks k s).2 = 0) := by
  refine ⟨?_, ?_, ?_⟩
  · intro s0 s hv ht h
    have h2 := (reachValid_timeInv h ⟨hv, ht⟩).2
    omega
  · intro s hr ht
    have hz : s.timeLeft - 1 = 0 := by omega
    refine ⟨?_, ?_, ?_⟩
    · simp only [Timer.tickFires, decide_eq_true_eq]
      omega
    · rw [Timer.tick_fire (by omega), hz]
    · rw [Timer.tick_fire (by omega), hz]
      by_cases hm : ({ s with timeLeft := (0 : Int) } : TimerState).currentMode = Mode.work
      · rw [Timer.complete_work hm]
        by_cases hc : Int.tmod (s.sessionsCompleted + 1) s.settings.sessionsBeforeLong = 0 <;>
          simp [hc, Timer.getCurrentModeDuration]
      · rw [Timer.complete_break hm]
        simp [Timer.getCurrentModeDuration]
  · intro t s h1 hr ht
    obtain ⟨t, rfl⟩ : ∃ u, t = u + 1 := ⟨t - 1, by omega⟩
    constructor
    · rw [iterTicks_countdown t s hr ht]
    · intro k hk
      have hkt : (k : Int) < s.timeLeft := by
        rw [ht]
        exact_mod_cast hk
      rw [iterTicks_noFire k s hr hkt]

/-- C3, witness: a one-minute work countdown fires `complete` exactly once,
on tick 60 and not by tick 59. -/
theorem C3_no_negative_time_witness :
    (Timer.iterTicks 60 (Timer.start (loadState 1 5 15 4 0 0))).2 = 1 ∧
    (Timer.iterTicks 59 (Timer.start (loadState 1 5 15 4 0 0))).2 = 0 := by
  have h := C3_no_negative_time.2.2 60 (Timer.start (loadState 1 5 15 4 0 0))
      (by norm_num) (by decide) (by decide)
  exact ⟨h.1, h.2 59 (by norm_num)⟩

/-- C4: in every reachable state at most one countdown tick source is live,
running states have exactly one and paused states none; `start()` while
already running changes nothing; and starting twice equals starting once. -/
theorem C4_single_tick_source :
    (∀ (w b l n sc tf : Int) (s : TimerState),
        Reach (loadState w b l n sc tf) s →
        s.tickSources ≤ 1 ∧
        (s.isRunning = true → s.tickSources = 1) ∧
        (s.isRunning = false → s.tickSources = 0)) ∧
    (∀ s : TimerState, s.isRunning = true → Timer.start s = s) ∧
    (∀ s : TimerState, Timer.start (Timer.start s) = Timer.start s) := by
  refine ⟨?_, ?_, ?_⟩
  · intro w b l n sc tf s h
    have hinv : TickInv s := reach_tickInv h rfl
    unfold TickInv at hinv
    refine ⟨?_, ?_, ?_⟩
    · split at hinv <;> omega
    · intro hr
      simp [hinv, hr]
    · intro hr
      simp [hinv, hr]
  · exact fun s h => Timer.start_run h
  · intro s
    by_cases hr : s.isRunning = true
    · rw [Timer.start_run hr, Timer.start_run hr]
    · have hs : Timer.start s = { s with isRunning := true, tickSources := s.tickSources + 1 } :=
        Timer.start_notRun (by simpa using hr)
      rw [hs, Timer.start_run rfl]

/-- C4, witness: starting the freshly loaded default state yields exactly one
tick source. -/
theorem C4_single_tick_source_witness :
    (Timer.start initState).tickSources ≤ 1 ∧
    ((Timer.start initState).isRunning = true → (Timer.start initState).tickSources = 1) ∧
    ((Timer.start initState).isRunning = false → (Timer.start initState).tickSources = 0) :=
  C4_single_tick_source.1 25 5 15 4 0 0 (Timer.start initState)
    (Relation.ReflTransGen.single (Step.start initState))

end NotesApp

namespace NotesApp

/-- C5, counterexample: `open()` is NOT guarded by `isOpen`: calling it while
the fullscreen surface is already open creates a second quote-rotation
interval (overwriting the handle, so the first can never be cleared), so
double open is not idempotent as the claim states. -/
theorem C5_counterexample :
    FullscreenTimer.quoteSources (FullscreenTimer.openFS (FullscreenTimer.openFS fsInit)) = 2 ∧
    FullscreenTimer.quoteSources (FullscreenTimer.openFS fsInit) = 1 ∧
    FullscreenTimer.openFS (FullscreenTimer.openFS fsInit) ≠ FullscreenTimer.openFS fsInit := by
  refine ⟨?_, ?_, ?_⟩ <;> decide

/-- C5, amended: `pause()` when already paused leaves the timer state
unchanged, and fullscreen `close()` when already closed leaves the
fullscreen state unchanged; a second `open()` leaves the `isOpen` flag
unchanged but is not state-idempotent: every `open()` call, guarded or not,
creates one more live quote-rotation tick source. -/
theorem C5_idempotence :
    (∀ (w b l n sc tf : Int) (s : TimerState),
        Reach (loadState w b l n sc tf) s → s.isRunning = false →
        Timer.pause s = s) ∧
    (∀ f : FsState, FsReach f → f.isOpen = false → FullscreenTimer.close f = f) ∧
    (∀ f : FsState,
        (FullscreenTimer.openFS (FullscreenTimer.openFS f)).isOpen =
          (FullscreenTimer.openFS f).isOpen) ∧
    (∀ f : FsState,
        FullscreenTimer.quoteSources (FullscreenTimer.openFS f) =
          FullscreenTimer.quoteSources f + 1) := by
  refine ⟨?_, ?_, ?_, ?_⟩
  · intro w b l n sc tf s h hr
    have hinv : TickInv s := reach_tickInv h rfl
    unfold TickInv at hinv
    rw [hr] at hinv
    simp only [Bool.false_eq_true, if_false] at hinv
    obtain ⟨tl, ir, ts, cm, sc2, tf2, st, sr⟩ := s
    simp only at hr hinv
    subst hr
    subst hinv
    rfl
  · intro f h ho
    have hh := fsReach_closed_handle h ho
    obtain ⟨o, hl, lq⟩ := f
    simp only at ho hh
    subst ho
    subst hh
    rfl
  · intro f
    rfl
  · intro f
    simp [FullscreenTimer.quoteSources, FullscreenTimer.openFS]

/-- C5, witness: pausing the freshly loaded (already paused) default state
changes nothing. -/
theorem C5_idempotence_witness : Timer.pause initState = initState :=
  C5_idempotence.1 25 5 15 4 0 0 initState Relation.ReflTransGen.refl (by decide)

/-- C6, counterexample: `timeLeftSeconds` is NOT clamped above by the mode
duration: `setCustomTime(50)` while paused in a 25-minute work mode is a
reachable state whose progress percentage is `-100`, outside `[0, 100]`. -/
theorem C6_counterexample :
    Reach initState (Timer.setCustomTime 50 initState) ∧
    Timer.progressPercentage (Timer.setCustomTime 50 initState) = -100 ∧
    ¬ (0 ≤ Timer.progressPercentage (Timer.setCustomTime 50 initState)) := by
  have hp : Timer.progressPercentage (Timer.setCustomTime 50 initState) = -100 := by
    norm_num [Timer.progressPercentage, Timer.getCurrentModeDuration,
      Timer.setCustomTime, initState, loadState]
  refine ⟨Relation.ReflTransGen.single (Step.setCustom initState 50 rfl (by norm_num)),
    hp, ?_⟩
  rw [hp]
  norm_num

/-- C6, amended: the percentage is `(modeDuration*60 - timeLeft) /
(modeDuration*60) * 100`; it lies in `[0, 100]` whenever `0 ≤ timeLeft ≤
modeDuration*60`, it is `0` when `timeLeft` equals the mode's full duration
and `100` when `timeLeft` is `0` — but `timeLeft` is not in fact clamped
above by the mode duration (see the counterexample). -/
theorem C6_progress_bounds :
    (∀ s : TimerState, 0 ≤ s.timeLeft →
        s.timeLeft ≤ Timer.getCurrentModeDuration s * 60 →
        0 ≤ Timer.progressPercentage s ∧ Timer.progressPercentage s ≤ 100) ∧
    (∀ s : TimerState, s.timeLeft = Timer.getCurrentModeDuration s * 60 →
        Timer.progressPercentage s = 0) ∧
    (∀ s : TimerState, s.timeLeft = 0 → 1 ≤ Timer.getCurrentModeDuration s →
        Timer.progressPercentage s = 100) := by
  refine ⟨?_, ?_, ?_⟩
  · intro s h0 hle
    simp only [Timer.progressPercentage]
    rcases eq_or_lt_of_le (le_trans h0 hle) with heq | hpos
    · have hz : s.timeLeft = 0 := by omega
      rw [hz, ← heq]
      norm_num
    · have hTQ : (0 : Rat) < ((Timer.getCurrentModeDuration s * 60 : Int) : Rat) := by
        exact_mod_cast hpos
      have hleQ : ((s.timeLeft : Int) : Rat) ≤ ((Timer.getCurrentModeDuration s * 60 : Int) : Rat) := by
        exact_mod_cast hle
      have h0Q : (0 : Rat) ≤ ((s.timeLeft : Int) : Rat) := by exact_mod_cast h0
      constructor
      · apply mul_nonneg _ (by norm_num)
        apply div_nonneg _ (le_of_lt hTQ)
        linarith
      · have hq : (((Timer.getCurrentModeDuration s * 60 : Int) : Rat) - (s.timeLeft : Int))
            / ((Timer.getCurrentModeDuration s * 60 : Int) : Rat) ≤ 1 := by
          rw [div_le_one hTQ]
          linarith
        have hq0 : (0 : Rat) ≤
            (((Timer.getCurrentModeDuration s * 60 : Int) : Rat) - (s.timeLeft : Int))
            / ((Timer.getCurrentModeDuration s * 60 : Int) : Rat) := by
          apply div_nonneg _ (le_of_lt hTQ)
          linarith
        nlinarith
  · intro s h
    simp only [Timer.progressPercentage, h]
    norm_num
  · intro s h hd
    have hTQ : ((Timer.getCurrentModeDuration s * 60 : Int) : Rat) ≠ 0 := by
      have : (0 : Int) < Timer.getCurrentModeDuration s * 60 := by omega
      exact_mod_cast ne_of_gt this
    simp only [Timer.progressPercentage, h]
    rw [Int.cast_zero, sub_zero, div_self hTQ]
    norm_num

/-- C6, witness: the endpoint facts at the freshly loaded default state. -/
theorem C6_progress_bounds_witness : Timer.progressPercentage initState = 0 :=
  C6_progress_bounds.2.1 initState (by decide)

end NotesApp

namespace NotesApp

/-- C7: `sessionsCompleted` and `totalFocusTime` change only when a
work-mode countdown completes: a work completion increments the count by
exactly one, adds `workDuration` to the focus total and persists both; a
break completion and every other operation leave both values and their
persisted copies unchanged. -/
theorem C7_stats_frame :
    (∀ s : TimerState, s.currentMode = Mode.work →
        (Timer.complete s).sessionsCompleted = s.sessionsCompleted + 1 ∧
        (Timer.complete s).totalFocusTime = s.totalFocusTime + s.settings.workDuration ∧
        (Timer.complete s).store.sessionsCompleted = s.sessionsCompleted + 1 ∧
        (Timer.complete s).store.totalFocusTime = s.totalFocusTime + s.settings.workDuration) ∧
    (∀ s : TimerState, ¬ s.currentMode = Mode.work →
        (Timer.complete s).sessionsCompleted = s.sessionsCompleted ∧
        (Timer.complete s).totalFocusTime = s.totalFocusTime ∧
        (Timer.complete s).store = s.store) ∧
    (∀ s : TimerState,
        (Timer.start s).sessionsCompleted = s.sessionsCompleted ∧
        (Timer.start s).totalFocusTime = s.totalFocusTime ∧
        (Timer.pause s).sessionsCompleted = s.sessionsCompleted ∧
        (Timer.pause s).totalFocusTime = s.totalFocusTime ∧
        (Timer.reset s).sessionsCompleted = s.sessionsCompleted ∧
        (Timer.reset s).totalFocusTime = s.totalFocusTime) ∧
    (∀ (s : TimerState) (m : Int),
        (Timer.setCustomTime m s).sessionsCompleted = s.sessionsCompleted ∧
        (Timer.setCustomTime m s).totalFocusTime = s.totalFocusTime) ∧
    (∀ (s : TimerState) (w b l n : Int),
        (Timer.saveSettings w b l n s).sessionsCompleted = s.sessionsCompleted ∧
        (Timer.saveSettings w b l n s).totalFocusTime = s.totalFocusTime ∧
        (Timer.saveSettings w b l n s).store.sessionsCompleted = s.store.sessionsCompleted ∧
        (Timer.saveSettings w b l n s).store.totalFocusTime = s.store.totalFocusTime) ∧
    (∀ s : TimerState, Timer.tickFires s = false →
        (Timer.tick s).sessionsCompleted = s.sessionsCompleted ∧
        (Timer.tick s).totalFocusTime = s.totalFocusTime) := by
  refine ⟨?_, ?_, ?_, ?_, ?_, ?_⟩
  · intro s h
    rw [Timer.complete_work h]
    exact ⟨rfl, rfl, rfl, rfl⟩
  · intro s h
    rw [Timer.complete_break h]
    exact ⟨rfl, rfl, rfl⟩
  · intro s
    refine ⟨?_, ?_, rfl, rfl, rfl, rfl⟩ <;>
    · unfold Timer.start
      split <;> rfl
  · intro s m
    exact ⟨rfl, rfl⟩
  · intro s w b l n
    exact ⟨rfl, rfl, rfl, rfl⟩
  · intro s hf
    have hnf : ¬ s.timeLeft - 1 ≤ 0 := by
      simpa [Timer.tickFires, decide_eq_false_iff_not] using hf
    rw [Timer.tick_noFire hnf]
    exact ⟨rfl, rfl⟩

/-- C7, witness: the work-completion deltas at the default state. -/
theorem C7_stats_frame_witness :
    (Timer.complete initState).sessionsCompleted = initState.sessionsCompleted + 1 ∧
    (Timer.complete initState).totalFocusTime =
      initState.totalFocusTime + initState.settings.workDuration ∧
    (Timer.complete initState).store.sessionsCompleted = initState.sessionsCompleted + 1 ∧
    (Timer.complete initState).store.totalFocusTime =
      initState.totalFocusTime + initState.settings.workDuration :=
  C7_stats_frame.1 initState (by decide)

/-- C8: `complete()` never auto-restarts: afterwards the timer is paused, the
mode follows the transition rule, and `timeLeft` equals the new mode's full
configured duration.  Scenario: with the 25-minute default, starting and
advancing 1500 seconds fires `complete` exactly once and leaves a paused
ShortBreak state with `sessionsCompleted = 1`, `totalFocusTime = 25` and five
minutes on the clock. -/
theorem C8_complete_no_autorestart :
    (∀ s : TimerState, (Timer.complete s).isRunning = false) ∧
    (∀ s : TimerState,
        (Timer.complete s).timeLeft =
          Timer.getCurrentModeDuration (Timer.complete s) * 60) ∧
    (∀ s : TimerState, s.currentMode = Mode.work →
        (Timer.complete s).currentMode =
          (if Int.tmod (s.sessionsCompleted + 1) s.settings.sessionsBeforeLong = 0
           then Mode.longBreak else Mode.shortBreak)) ∧
    (∀ s : TimerState, ¬ s.currentMode = Mode.work →
        (Timer.complete s).currentMode = Mode.work) ∧
    ((Timer.iterTicks 1500 (Timer.start initState)).2 = 1 ∧
     (Timer.iterTicks 1500 (Timer.start initState)).1.isRunning = false ∧
     (Timer.iterTicks 1500 (Timer.start initState)).1.currentMode = Mode.shortBreak ∧
     (Timer.iterTicks 1500 (Timer.start initState)).1.sessionsCompleted = 1 ∧
     (Timer.iterTicks 1500 (Timer.start initState)).1.totalFocusTime = 25 ∧
     (Timer.iterTicks 1500 (Timer.start initState)).1.timeLeft = 300) := by
  refine ⟨?_, ?_, ?_, ?_, ?_⟩
  · intro s
    by_cases hm : s.currentMode = Mode.work
    · rw [Timer.complete_work hm]
    · rw [Timer.complete_break hm]
  · intro s
    by_cases hm : s.currentMode = Mode.work
    · rw [Timer.complete_work hm]
      by_cases hc : Int.tmod (s.sessionsCompleted + 1) s.settings.sessionsBeforeLong = 0 <;>
        simp [hc, Timer.getCurrentModeDuration]
    · rw [Timer.complete_break hm]
      simp [Timer.getCurrentModeDuration]
  · intro s h
    rw [Timer.complete_work h]
  · intro s h
    rw [Timer.complete_break h]
  · have h := iterTicks_countdown 1499 (Timer.start initState) (by decide) (by decide)
    refine ⟨?_, ?_, ?_, ?_, ?_, ?_⟩ <;>
    · rw [h] <;> decide

/-- C8, witness: the transition rule applied at the default state. -/
theorem C8_complete_no_autorestart_witness :
    (Timer.complete initState).currentMode =
      (if Int.tmod (initState.sessionsCompleted + 1) initState.settings.sessionsBeforeLong = 0
       then Mode.longBreak else Mode.shortBreak) :=
  C8_complete_no_autorestart.2.2.1 initState (by decide)

/-- C9: the completion notification is dispatched only under granted
permission, and — because it reads `currentMode` after the transition — it
shows "Take a break!" when the session that just ended was work and "Time to
focus!" when it was a break. -/
theorem C9_notification_dispatch :
    (∀ (s : TimerState) (p : Timer.NotifPermission),
        ¬ p = Timer.NotifPermission.granted →
        Timer.completeNotification p s = none) ∧
    (∀ s : TimerState, s.currentMode = Mode.work →
        Timer.completeNotification Timer.NotifPermission.granted s =
          some ("Take a break!")) ∧
    (∀ s : TimerState, ¬ s.currentMode = Mode.work →
        Timer.completeNotification Timer.NotifPermission.granted s =
          some ("Time to focus!")) := by
  refine ⟨?_, ?_, ?_⟩
  · intro s p hp
    simp [Timer.completeNotification, Timer.showNotification, hp]
  · intro s h
    simp only [Timer.completeNotification, Timer.showNotification, if_pos rfl]
    rw [Timer.complete_work h]
    by_cases hc : Int.tmod (s.sessionsCompleted + 1) s.settings.sessionsBeforeLong = 0 <;>
      simp [hc]
  · intro s h
    simp only [Timer.completeNotification, Timer.showNotification, if_pos rfl]
    rw [Timer.complete_break h]
    simp

/-- C9, witness: completing the default work state under granted permission
announces the break. -/
theorem C9_notification_dispatch_witness :
    Timer.completeNotification Timer.NotifPermission.granted initState =
      some ("Take a break!") :=
  C9_notification_dispatch.2.1 initState (by decide)

/-- C10: completing a work session credits exactly `settings.workDuration`
minutes, even when the countdown length was overridden by
`setCustomTime(m)` with `m ≠ workDuration`; and no operation other than a
work-mode completion changes `totalFocusTime`. -/
theorem C10_focus_credit :
    (∀ (s : TimerState) (m : Int), s.currentMode = Mode.work →
        (Timer.complete (Timer.setCustomTime m s)).totalFocusTime =
          s.totalFocusTime + s.settings.workDuration) ∧
    (∀ (s : TimerState) (m : Int),
        (Timer.setCustomTime m s).totalFocusTime = s.totalFocusTime) ∧
    (∀ s : TimerState,
        (Timer.start s).totalFocusTime = s.totalFocusTime ∧
        (Timer.pause s).totalFocusTime = s.totalFocusTime ∧
        (Timer.reset s).totalFocusTime = s.totalFocusTime) ∧
    (∀ (s : TimerState) (w b l n : Int),
        (Timer.saveSettings w b l n s).totalFocusTime = s.totalFocusTime) ∧
    (∀ s : TimerState, Timer.tickFires s = false →
        (Timer.tick s).totalFocusTime = s.totalFocusTime) ∧
    (∀ s : TimerState, ¬ s.currentMode = Mode.work →
        (Timer.complete s).totalFocusTime = s.totalFocusTime) := by
  refine ⟨?_, ?_, ?_, ?_, ?_, ?_⟩
  · intro s m h
    rw [Timer.complete_work (s := Timer.setCustomTime m s) h]
    rfl
  · intro s m
    rfl
  · intro s
    refine ⟨?_, rfl, rfl⟩
    unfold Timer.start
    split <;> rfl
  · intro s w b l n
    rfl
  · intro s hf
    have hnf : ¬ s.timeLeft - 1 ≤ 0 := by
      simpa [Timer.tickFires, decide_eq_false_iff_not] using hf
    rw [Timer.tick_noFire hnf]
  · intro s h
    rw [Timer.complete_break h]

/-- C10, witness: a 50-minute custom countdown in the default 25-minute work
mode still credits 25 minutes on completion. -/
theorem C10_focus_credit_witness :
    (Timer.complete (Timer.setCustomTime 50 initState)).totalFocusTime =
      initState.totalFocusTime + initState.settings.workDuration :=
  C10_focus_credit.1 initState 50 (by decide)

end NotesApp
